import Mathlib

/-!
Verification of the goiardi ACL Checker (package acl, the deny-all-aware
variant).  Policy tuples and every Checker operation the claims mention are
translated directly from the source.  The casbin rule store (Enforce,
GetFilteredPolicy, AddPolicy, RemovePolicy) and the actor / group /
association lookups live outside this package; they are modelled from the
specification's black-box contract for them (spec §6), as noted on each
such definition.
-/

/-- A policy tuple: subject, subkind, kind, name, perm, effect
(positions condGroupPos .. condEffectPos in the source). -/
structure PolicyTuple where
  subject : String
  subkind : String
  kind : String
  name : String
  perm : String
  effect : String
deriving DecidableEq, Repr

/-- Source constant enforceEffect = "allow". -/
def enforceEffect : String := "allow"

/-- Source constant denyEffect = "deny". -/
def denyEffect : String := "deny"

/-- Source constant DefaultUser = "pivotal". -/
def DefaultUser : String := "pivotal"

def condGroupPos : Nat := 0
def condSubkindPos : Nat := 1
def condKindPos : Nat := 2
def condNamePos : Nat := 3
def condPermPos : Nat := 4
def condEffectPos : Nat := 5

/-- Field of a tuple at a casbin position index (source field order). -/
def condField (p : PolicyTuple) : Nat → String
  | 0 => p.subject
  | 1 => p.subkind
  | 2 => p.kind
  | 3 => p.name
  | 4 => p.perm
  | _ => p.effect

/-- Modelled from the spec: the Rule Store state — the stored policy tuples
plus the role-membership edges (g-links) maintained through
AddRoleForUser / DeleteRoleForUser.  The store itself (casbin) is an
external collaborator specified as a black box in spec §6. -/
structure Store where
  policies : List PolicyTuple
  roleEdges : List (String × String)
deriving DecidableEq, Repr

/-- Roles directly containing subject s (edges (s, r)). -/
def roleStep (edges : List (String × String)) (s : String) : List String :=
  (edges.filter (fun e => e.1 == s)).map (fun e => e.2)

/-- Fuelled reachability along role edges. -/
def reachN : Nat → List (String × String) → String → String → Bool
  | 0, _, s, t => s == t
  | Nat.succ n, edges, s, t => s == t || (roleStep edges s).any (fun r => reachN n edges r t)

/-- Modelled from the spec: the transitive role-membership matching
g(r.sub, p.sub) used by the Rule Store (the model definition file is not
part of this package). -/
def roleLinked (edges : List (String × String)) (s t : String) : Bool :=
  reachN edges.length edges s t

/-- Modelled from the spec: Enforce(tuple) — transitive rule evaluation:
the request matches some stored tuple whose subject is reachable through
role membership and whose remaining five fields agree with the request. -/
def enforce (st : Store) (req : PolicyTuple) : Bool :=
  st.policies.any (fun p =>
    roleLinked st.roleEdges req.subject p.subject &&
    p.subkind == req.subkind && p.kind == req.kind &&
    p.name == req.name && p.perm == req.perm && p.effect == req.effect)

/-- Modelled from the spec: GetFilteredPolicy(fieldIndex, value) — query the
stored tuples by one field. -/
def getFilteredPolicy (st : Store) (idx : Nat) (v : String) : List PolicyTuple :=
  st.policies.filter (fun p => condField p idx == v)

/-- Modelled from the spec: AddPolicy — adds the tuple unless it is already
present. -/
def addPolicy (st : Store) (p : PolicyTuple) : Store :=
  if st.policies.contains p then st
  else { st with policies := st.policies ++ [p] }

/-- Modelled from the spec: RemovePolicy / RemovePolicySafe — removes the
tuple from the stored rules. -/
def removePolicy (st : Store) (p : PolicyTuple) : Store :=
  { st with policies := st.policies.filter (fun q => q != p) }

/-- An Item: ContainerKind, ContainerType, GetName (spec §3). -/
structure Item where
  containerKind : String
  containerType : String
  getName : String
deriving DecidableEq, Repr

/-- An Actor: name (GetName), user/client flag, org name (spec §3). -/
structure ActorE where
  name : String
  isUser : Bool
  orgName : String
deriving DecidableEq, Repr

/-- A Member is an Actor or a Group (spec §3). -/
inductive MemberE where
  | actor (a : ActorE)
  | grp (gname : String)
deriving DecidableEq, Repr

/-- Modelled from the spec: ACLName — an Actor's ACL name is its name; a
Group's ACL name is role##<groupname> (subject sentinel forms, spec §3). -/
def MemberE.aclName : MemberE → String
  | MemberE.actor a => a.name
  | MemberE.grp g => "role##" ++ g

/-- buildEnforcingSlice from the source: the specific tuple
(member.ACLName, item.ContainerType, item.ContainerKind, item.GetName,
perm, allow). -/
def buildEnforcingSlice (item : Item) (member : MemberE) (perm : String) : PolicyTuple :=
  { subject := member.aclName, subkind := item.containerType,
    kind := item.containerKind, name := item.getName,
    perm := perm, effect := enforceEffect }

/-- buildDenySlice from the source: the denyall##groups sentinel tuple for
an item and perm. -/
def buildDenySlice (item : Item) (perm : String) : PolicyTuple :=
  { subject := "denyall##groups", subkind := item.containerType,
    kind := item.containerKind, name := item.getName,
    perm := perm, effect := enforceEffect }

/-- enforceCondition.general from the source: replace name by $$default$$;
if both subkind and kind are "containers", first replace subkind by the
item name. -/
def PolicyTuple.general (e : PolicyTuple) : PolicyTuple :=
  let e1 := if e.subkind == "containers" && e.kind == "containers"
            then { e with subkind := e.name } else e
  { e1 with name := "$$default$$" }

/-- testForAnyPol from the source: does any tuple for this doer pin the
item (ignoring perm); for group items additionally the denyall##groups
sentinel is evaluated and decides. -/
def testForAnyPol (st : Store) (item : Item) (doer : MemberE) (perm : String) : Bool :=
  let fi := getFilteredPolicy st condGroupPos doer.aclName
  if fi.any (fun p => item.containerKind == p.kind && item.containerType == p.subkind && item.getName == p.name) then
    true
  else if item.containerKind == "groups" then
    enforce st (buildDenySlice item perm)
  else
    false

/-- isPermValid from the source: the perm occurs in some tuple filtered on
the item's subkind whose kind also matches. -/
def isPermValid (st : Store) (item : Item) (perm : String) : Bool :=
  ((getFilteredPolicy st condSubkindPos item.containerType).filter
    (fun p => p.kind == item.containerKind)).any (fun p => p.perm == perm)

/-- An Organization (only its name is relevant here). -/
structure Organization where
  name : String
deriving DecidableEq, Repr

/-- Modelled from the spec: the association records datastore — the set of
keys "name-orgname" present under the "association" collection. -/
structure AssocStore where
  keys : List String
deriving DecidableEq, Repr

/-- Error classes surfaced by CheckItemPerm (spec §7). -/
inductive Gerror where
  | invalidPerm
  | notAssociated
deriving DecidableEq, Repr

/-- testAssociation from the source: a user needs an association record
keyed name-orgname; a client needs OrgName equal to the org's name. -/
def testAssociation (assoc : AssocStore) (doer : ActorE) (org : Organization) : Option Gerror :=
  if doer.isUser then
    if assoc.keys.contains (doer.name ++ "-" ++ org.name) then none
    else some Gerror.notAssociated
  else if doer.orgName != org.name then some Gerror.notAssociated
  else none

/-- CheckItemPerm from the source (deny-all-aware variant): specific check,
then — unless testForAnyPol pins the item — the general check; on failure
the perm is validated and the association tested. -/
def CheckItemPerm (st : Store) (assoc : AssocStore) (org : Organization)
    (item : Item) (doer : ActorE) (perm : String) : Bool × Option Gerror :=
  let specific := buildEnforcingSlice item (MemberE.actor doer) perm
  let chk0 := enforce st specific
  let chkSucceeded :=
    if !chk0 then
      if !(testForAnyPol st item (MemberE.actor doer) perm) then
        enforce st specific.general
      else false
    else chk0
  if chkSucceeded then (true, none)
  else if !(isPermValid st item perm) then (false, some Gerror.invalidPerm)
  else
    match testAssociation assoc doer org with
    | some err => (false, some err)
    | none => (false, none)

/-- Go strings.HasPrefix, on the character lists of the strings. -/
def goHasPre (s pre : String) : Bool := pre.data.isPrefixOf s.data

/-- Go strings.TrimPrefix. -/
def goTrimPre (s pre : String) : String :=
  if goHasPre s pre then String.mk (s.data.drop pre.data.length) else s

/-- A decoded JSON value, the dynamic payload shape EditFromJSON receives
(Go interface value: map, slice, string or other scalar). -/
inductive JVal where
  | str (s : String)
  | num (n : Int)
  | obj (fields : List (String × JVal))
  | arr (elems : List JVal)

/-- Go map lookup on a decoded JSON object. -/
def lookupField : List (String × JVal) → String → Option JVal
  | [], _ => none
  | (k, v) :: rest, key => if k == key then some v else lookupField rest key

/-- The Go conversion loop newActors[i] = v.(string): every element must be
a string, otherwise the unchecked type assertion panics (result none). -/
def stringsOf : List JVal → Option (List String)
  | [] => some []
  | JVal.str s :: rest => (stringsOf rest).map (fun l => s :: l)
  | _ => none

/-- Outcome of an EditFromJSON call: normal return, an error return, or a
Go runtime panic (failed unchecked type assertion). -/
inductive EditErr where
  | aclMissingFromJSON
  | invalidActorType
  | invalidGroupType
  | invalidACLPermData
  | invalidACLData
  | actorNotFound (name : String)
  | groupNotFound (name : String)
deriving DecidableEq, Repr

inductive EditOutcome where
  | ok
  | err (e : EditErr)
  | panicked
deriving DecidableEq, Repr

/-- Modelled from the spec: the organization's resolvable actors and groups,
as consulted by actor.GetActor and group.Get (external collaborators). -/
structure OrgEnv where
  actors : List ActorE
  groups : List String
deriving Repr

/-- Modelled from the spec: actor.GetActor(org, name) — resolve an actor by
name; missing actors yield a bad-request-class error at the call site. -/
def getActor (env : OrgEnv) (name : String) : Option ActorE :=
  env.actors.find? (fun a => a.name == name)

/-- Modelled from the spec: group.Get(org, name) — resolve a group by name. -/
def groupGet (env : OrgEnv) (name : String) : Option String :=
  env.groups.find? (fun g => g == name)

/-- The removal condition of the reconciliation pass in EditFromJSON: the
tuple is in this item/perm slot, is not the denyall## sentinel, and its
subject (translated through role##) is absent from the desired lists. -/
def editRemoveCond (item : Item) (perm : String) (newActors newGroups : List String)
    (p : PolicyTuple) : Bool :=
  if p.kind == item.containerKind && p.subkind == item.containerType && p.perm == perm then
    if goHasPre p.subject "denyall##" then false
    else if goHasPre p.subject "role##" then
      !(newGroups.contains (goTrimPre p.subject "role##"))
    else !(newActors.contains p.subject)
  else false

/-- One iteration of the reconciliation removal loop. -/
def editRemoveStep (item : Item) (perm : String) (newActors newGroups : List String)
    (st : Store) (p : PolicyTuple) : Store :=
  if editRemoveCond item perm newActors newGroups p then removePolicy st p else st

/-- The actor-granting loop of EditFromJSON: resolve each desired actor and
add its specific tuple; an unresolvable name aborts with that name. -/
def addActorsLoop (env : OrgEnv) (item : Item) (perm : String) :
    List String → Store → Option String × Store
  | [], st => (none, st)
  | act :: rest, st =>
    match getActor env act with
    | none => (some act, st)
    | some a => addActorsLoop env item perm rest
        (addPolicy st (buildEnforcingSlice item (MemberE.actor a) perm))

/-- The group-granting loop of EditFromJSON: resolve each desired group and
add its role## tuple; an unresolvable name aborts with that name. -/
def addGroupsLoop (env : OrgEnv) (item : Item) (perm : String) :
    List String → Store → Option String × Store
  | [], st => (none, st)
  | gr :: rest, st =>
    match groupGet env gr with
    | none => (some gr, st)
    | some g => addGroupsLoop env item perm rest
        (addPolicy st (buildEnforcingSlice item (MemberE.grp g) perm))

/-- EditFromJSON from the source (deny-all-aware variant): structural
validation of the payload, the removal pass over the item's current
tuples, the actor and group grant loops, and the denyall##groups sentinel
maintenance for group items. -/
def EditFromJSON (env : OrgEnv) (st : Store) (item : Item) (perm : String)
    (data : JVal) : EditOutcome × Store :=
  match data with
  | JVal.obj dataFields =>
    match lookupField dataFields perm with
    | none => (EditOutcome.err EditErr.aclMissingFromJSON, st)
    | some aclEdit =>
      match aclEdit with
      | JVal.obj editFields =>
        let filteredItem := getFilteredPolicy st condNamePos item.getName
        match lookupField editFields "actors" with
        | some (JVal.arr newActRaw) =>
          match lookupField editFields "groups" with
          | some (JVal.arr newGroupsRaw) =>
            match stringsOf newActRaw with
            | none => (EditOutcome.panicked, st)
            | some newActors =>
              match stringsOf newGroupsRaw with
              | none => (EditOutcome.panicked, st)
              | some newGroups =>
                let st1 := filteredItem.foldl (editRemoveStep item perm newActors newGroups) st
                match addActorsLoop env item perm newActors st1 with
                | (some act, stE) => (EditOutcome.err (EditErr.actorNotFound act), stE)
                | (none, st2) =>
                  let denyallp := buildDenySlice item perm
                  if newGroups.length > 0 then
                    match addGroupsLoop env item perm newGroups st2 with
                    | (some gr, stE) => (EditOutcome.err (EditErr.groupNotFound gr), stE)
                    | (none, st3) =>
                      if item.containerKind == "groups" then
                        (EditOutcome.ok, removePolicy st3 denyallp)
                      else (EditOutcome.ok, st3)
                  else if item.containerKind == "groups" then
                    (EditOutcome.ok, addPolicy st2 denyallp)
                  else (EditOutcome.ok, st2)
          | _ => (EditOutcome.err EditErr.invalidGroupType, st)
        | _ => (EditOutcome.err EditErr.invalidActorType, st)
      | _ => (EditOutcome.err EditErr.invalidACLPermData, st)
  | _ => (EditOutcome.err EditErr.invalidACLData, st)

/-- GetItemPolicies from the source: the tuples keyed on the item name
whose kind and subkind both match. -/
def GetItemPolicies (st : Store) (itemName itemKind itemType : String) : List PolicyTuple :=
  (getFilteredPolicy st condNamePos itemName).filter
    (fun p => p.kind == itemKind && p.subkind == itemType)

/-- RenameItemACL from the source: copy every tuple keyed on the old name
to the item's current name, and only then remove the old-keyed tuples. -/
def RenameItemACL (st : Store) (item : Item) (oldName : String) : Store :=
  let oldPolicies := GetItemPolicies st oldName item.containerKind item.containerType
  if oldPolicies.isEmpty then st
  else
    let st1 := oldPolicies.foldl
      (fun acc p => addPolicy acc { p with name := item.getName }) st
    oldPolicies.foldl (fun acc p => removePolicy acc p) st1

/-- RemoveItemACL from the source: the body is `return nil` — a no-op that
leaves the checker state untouched. -/
def RemoveItemACL (st : Store) (_item : Item) : Option Gerror × Store :=
  (none, st)

/-- An assembled per-permission ACL entry (aclhelper.ACLItem). -/
structure ACLItem where
  perm : String
  effect : String
  actors : List String
  groups : List String
deriving DecidableEq, Repr

/-- Append a subject to the entry of a perm inside an assembled snapshot,
splitting role## subjects into the group list. -/
def aclAppendSubj (acl : List (String × ACLItem)) (perm subj : String) :
    List (String × ACLItem) :=
  acl.map (fun kv =>
    if kv.1 == perm then
      (kv.1,
        if goHasPre subj "role##" then
          { kv.2 with groups := kv.2.groups ++ [goTrimPre subj "role##"] }
        else
          { kv.2 with actors := kv.2.actors ++ [subj] })
    else kv)

/-- One iteration of assembleACL: skip tuples the comparer rejects and
tuples whose effect is deny; otherwise create the perm entry on first
sight and append the subject. -/
def assembleStep (item : Item) (comparer : Item → PolicyTuple → Bool)
    (acl : List (String × ACLItem)) (p : PolicyTuple) : List (String × ACLItem) :=
  if comparer item p then
    if p.effect == denyEffect then acl
    else
      let acl1 :=
        if (acl.find? (fun kv => kv.1 == p.perm)).isSome then acl
        else acl ++ [(p.perm, { perm := p.perm, effect := p.effect, actors := [], groups := [] })]
      aclAppendSubj acl1 p.perm p.subject
  else acl

/-- assembleACL from the source (deny-all-aware variant, which skips
deny-effect tuples). -/
def assembleACL (item : Item) (filtered : List PolicyTuple)
    (comparer : Item → PolicyTuple → Bool) : List (String × ACLItem) :=
  filtered.foldl (assembleStep item comparer) []

/-- The item-specific comparer of GetItemACL. -/
def itemCompare (i : Item) (pol : PolicyTuple) : Bool :=
  pol.kind == i.containerKind && pol.subkind == i.containerType

/-- The general comparer of GetItemACL (short-circuits the
containers/containers corner case). -/
def genCompare (i : Item) (pol : PolicyTuple) : Bool :=
  if i.containerKind == "containers" && i.containerType == "containers" then false
  else pol.kind == i.containerKind

/-- The override loop of GetItemACL: each perm of the item-specific
snapshot overwrites the matching entry of the general snapshot; a perm
absent from the general snapshot is a nil-map dereference in the source
(modelled as a panic, result none). -/
def mergeACL : List (String × ACLItem) → List (String × ACLItem) →
    Option (List (String × ACLItem))
  | gen, [] => some gen
  | gen, kv :: rest =>
    if (gen.find? (fun g => g.1 == kv.1)).isSome then
      mergeACL
        (gen.map (fun gkv =>
          if gkv.1 == kv.1 then
            (gkv.1,
              { gkv.2 with
                perm := kv.2.perm
                effect := kv.2.effect
                actors := if kv.2.actors ≠ [] then kv.2.actors else gkv.2.actors
                groups := if kv.2.groups ≠ [] then kv.2.groups else gkv.2.groups })
          else gkv))
        rest
    else none

/-- Modelled from the spec: util.RemoveDupStrings — deduplicate a string
list, keeping first occurrences. -/
def removeDupStrings (l : List String) : List String :=
  l.foldl (fun acc s => if acc.contains s then acc else acc ++ [s]) []

/-- The final loop of GetItemACL: guarantee DefaultUser in every actor
list and deduplicate both lists. -/
def postProcess (acl : List (String × ACLItem)) : List (String × ACLItem) :=
  acl.map (fun kv =>
    let a := if kv.2.actors.contains DefaultUser then kv.2.actors
             else kv.2.actors ++ [DefaultUser]
    (kv.1, { kv.2 with actors := removeDupStrings a, groups := removeDupStrings kv.2.groups }))

/-- Result of GetItemACL: NotFound, a nil-map panic in the override loop,
or the assembled snapshot. -/
inductive GetACLResult where
  | notFound
  | panicked
  | ok (acl : List (String × ACLItem))
deriving DecidableEq, Repr

/-- GetItemACL from the source (deny-all-aware variant): assemble the
item-specific and general interim snapshots, merge, then post-process. -/
def GetItemACL (st : Store) (item : Item) : GetACLResult :=
  let filteredItem := getFilteredPolicy st condNamePos item.getName
  let filteredType :=
    if item.containerKind == "groups" then getFilteredPolicy st condNamePos "$$default$$"
    else getFilteredPolicy st condSubkindPos item.containerType
  if filteredItem.isEmpty && filteredType.isEmpty then GetACLResult.notFound
  else
    let itemPerms := assembleACL item filteredItem itemCompare
    let genPerms := assembleACL item filteredType genCompare
    if item.containerKind == "containers" && item.containerType == "containers" then
      GetACLResult.ok (postProcess itemPerms)
    else
      match mergeACL genPerms itemPerms with
      | none => GetACLResult.panicked
      | some merged => GetACLResult.ok (postProcess merged)

/-- GetItemACL as the spec words it: identical, except that deny-effect
tuples are excluded from both interim snapshots before assembly
(spec §3 invariant and §4.4: deny tuples never appear in a snapshot). -/
def GetItemACLAllowOnly (st : Store) (item : Item) : GetACLResult :=
  let filteredItem := getFilteredPolicy st condNamePos item.getName
  let filteredType :=
    if item.containerKind == "groups" then getFilteredPolicy st condNamePos "$$default$$"
    else getFilteredPolicy st condSubkindPos item.containerType
  if filteredItem.isEmpty && filteredType.isEmpty then GetACLResult.notFound
  else
    let itemPerms := assembleACL item (filteredItem.filter (fun p => !(p.effect == denyEffect))) itemCompare
    let genPerms := assembleACL item (filteredType.filter (fun p => !(p.effect == denyEffect))) genCompare
    if item.containerKind == "containers" && item.containerType == "containers" then
      GetACLResult.ok (postProcess itemPerms)
    else
      match mergeACL genPerms itemPerms with
      | none => GetACLResult.panicked
      | some merged => GetACLResult.ok (postProcess merged)

/-- The specific tuple for an item, perm and raw subject string. -/
def subjTuple (item : Item) (perm subj : String) : PolicyTuple :=
  { subject := subj, subkind := item.containerType, kind := item.containerKind,
    name := item.getName, perm := perm, effect := enforceEffect }

/-- The full removal condition of the reconciliation pass: the tuple is
keyed on the item's name and satisfies the per-tuple removal condition. -/
def editFullRemCond (item : Item) (perm : String) (A G : List String) (q : PolicyTuple) : Prop :=
  q.name = item.getName ∧ editRemoveCond item perm A G q = true

/-- The surviving and added tuples of a successful EditFromJSON run,
before the denyall##groups sentinel handling. -/
def editBase (st : Store) (item : Item) (perm : String) (A G : List String)
    (q : PolicyTuple) : Prop :=
  (q ∈ st.policies ∧ ¬ editFullRemCond item perm A G q) ∨
    q ∈ A.map (subjTuple item perm) ∨
    q ∈ G.map (fun g => subjTuple item perm ("role##" ++ g))

/-- Membership in the final store of a successful EditFromJSON run: kept
current tuples, added actor and group tuples, and the denyall##groups
sentinel handling for group items. -/
def editFinalSpec (st : Store) (item : Item) (perm : String) (A G : List String)
    (q : PolicyTuple) : Prop :=
  if item.containerKind = "groups" then
    if G = [] then editBase st item perm A G q ∨ q = buildDenySlice item perm
    else editBase st item perm A G q ∧ q ≠ buildDenySlice item perm
  else editBase st item perm A G q

def malformedShape (data : JVal) (perm : String) : Bool :=
  match data with
  | JVal.obj df =>
    match lookupField df perm with
    | some (JVal.obj ef) =>
      match lookupField ef "actors" with
      | some (JVal.arr _) =>
        match lookupField ef "groups" with
        | some (JVal.arr _) => false
        | _ => true
      | _ => true
    | _ => true
  | _ => true

def isStructuralErr : EditOutcome → Bool
  | EditOutcome.err EditErr.aclMissingFromJSON => true
  | EditOutcome.err EditErr.invalidActorType => true
  | EditOutcome.err EditErr.invalidGroupType => true
  | EditOutcome.err EditErr.invalidACLPermData => true
  | EditOutcome.err EditErr.invalidACLData => true
  | _ => false

/-! Helper lemmas about the modelled Rule Store. -/

theorem reachN_self (n : Nat) (edges : List (String × String)) (s : String) :
    reachN n edges s s = true := by
  cases n <;> simp [reachN]

theorem roleLinked_self (edges : List (String × String)) (s : String) :
    roleLinked edges s s = true :=
  reachN_self _ _ _

theorem enforce_eq_true_of {st : Store} {req : PolicyTuple}
    (h : ∃ p ∈ st.policies,
      roleLinked st.roleEdges req.subject p.subject = true ∧
      p.subkind = req.subkind ∧ p.kind = req.kind ∧ p.name = req.name ∧
      p.perm = req.perm ∧ p.effect = req.effect) :
    enforce st req = true := by
  rcases h with ⟨p, hp, hl, h1, h2, h3, h4, h5⟩
  simp only [enforce, List.any_eq_true]
  exact ⟨p, hp, by simp [hl, h1, h2, h3, h4, h5]⟩

theorem enforce_mem_self {st : Store} {p : PolicyTuple} (hp : p ∈ st.policies) :
    enforce st p = true :=
  enforce_eq_true_of ⟨p, hp, roleLinked_self _ _, rfl, rfl, rfl, rfl, rfl⟩

theorem isPermValid_eq_false {st : Store} {item : Item} {perm : String}
    (h : ∀ p ∈ st.policies,
      ¬(p.subkind = item.containerType ∧ p.kind = item.containerKind ∧ p.perm = perm)) :
    isPermValid st item perm = false := by
  simp only [isPermValid, getFilteredPolicy]
  rw [List.any_eq_false]
  intro p hp
  simp only [List.mem_filter] at hp
  obtain ⟨⟨hmem, hsk⟩, hk⟩ := hp
  simp only [condField, condSubkindPos, beq_iff_eq] at hsk hk
  simp only [beq_iff_eq]
  intro hpm
  exact h p hmem ⟨hsk, hk, hpm⟩

theorem testForAnyPol_eq_true_of_denyall {st : Store} {item : Item} {doer : MemberE}
    {perm : String} (hk : item.containerKind = "groups")
    (hs : buildDenySlice item perm ∈ st.policies) :
    testForAnyPol st item doer perm = true := by
  have hd : enforce st (buildDenySlice item perm) = true := enforce_mem_self hs
  simp only [testForAnyPol]
  cases hany : (getFilteredPolicy st condGroupPos doer.aclName).any
      (fun p => item.containerKind == p.kind && item.containerType == p.subkind && item.getName == p.name) with
  | true => simp [hany]
  | false => simp [hany, hk, hd]

/-- C1: an explicit allow tuple exactly matching the specific condition
(actor ACL name, item ContainerType, ContainerKind, GetName, perm),
including a match through transitive role membership, makes CheckItemPerm
return (true, nil) regardless of any general rule. -/
theorem checkItemPerm_explicit_allow (st : Store) (assoc : AssocStore)
    (org : Organization) (item : Item) (doer : ActorE) (perm : String)
    (h : ∃ p ∈ st.policies,
      roleLinked st.roleEdges doer.name p.subject = true ∧
      p.subkind = item.containerType ∧ p.kind = item.containerKind ∧
      p.name = item.getName ∧ p.perm = perm ∧ p.effect = enforceEffect) :
    CheckItemPerm st assoc org item doer perm = (true, none) := by
  have he : enforce st (buildEnforcingSlice item (MemberE.actor doer) perm) = true :=
    enforce_eq_true_of h
  simp [CheckItemPerm, he]

theorem checkItemPerm_explicit_allow_witness :
    CheckItemPerm
      { policies := [{ subject := "role##admins", subkind := "nodes", kind := "containers",
                       name := "node1", perm := "read", effect := "allow" },
                     { subject := "bob", subkind := "nodes", kind := "containers",
                       name := "$$default$$", perm := "read", effect := "allow" }],
        roleEdges := [("alice", "role##admins")] }
      { keys := [] } { name := "o" }
      { containerKind := "containers", containerType := "nodes", getName := "node1" }
      { name := "alice", isUser := true, orgName := "o" } "read" = (true, none) :=
  checkItemPerm_explicit_allow _ _ _ _ _ _ (by decide)

/-- C2: on a group-kind item with the denyall##groups sentinel set for the
perm, an actor with no matching specific grant gets (false, nil) — the
sentinel pins the decision away from any general rule — provided the perm
is valid for the item and the actor is associated. -/
theorem checkItemPerm_denyall_pins (st : Store) (assoc : AssocStore)
    (org : Organization) (item : Item) (doer : ActorE) (perm : String)
    (hk : item.containerKind = "groups")
    (hs : buildDenySlice item perm ∈ st.policies)
    (hns : enforce st (buildEnforcingSlice item (MemberE.actor doer) perm) = false)
    (hv : isPermValid st item perm = true)
    (ha : testAssociation assoc doer org = none) :
    CheckItemPerm st assoc org item doer perm = (false, none) := by
  have ht : testForAnyPol st item (MemberE.actor doer) perm = true :=
    testForAnyPol_eq_true_of_denyall hk hs
  simp [CheckItemPerm, hns, ht, hv, ha]

theorem checkItemPerm_denyall_pins_witness :
    CheckItemPerm
      { policies := [{ subject := "denyall##groups", subkind := "groups", kind := "groups",
                       name := "admins", perm := "update", effect := "allow" },
                     { subject := "alice", subkind := "groups", kind := "groups",
                       name := "$$default$$", perm := "update", effect := "allow" }],
        roleEdges := [] }
      { keys := ["alice-o"] } { name := "o" }
      { containerKind := "groups", containerType := "groups", getName := "admins" }
      { name := "alice", isUser := true, orgName := "o" } "update" = (false, none) :=
  checkItemPerm_denyall_pins _ _ _ _ _ _ (by decide) (by decide) (by decide)
    (by decide) (by decide)

/-- C3: when the specific check fails and no tuple pins the item for this
actor, a general $$default$$ allow tuple — the specific tuple with its
name replaced by $$default$$, the subkind first replaced by the item name
in the containers/containers case — makes CheckItemPerm return (true, nil). -/
theorem checkItemPerm_general_default (st : Store) (assoc : AssocStore)
    (org : Organization) (item : Item) (doer : ActorE) (perm : String)
    (hns : enforce st (buildEnforcingSlice item (MemberE.actor doer) perm) = false)
    (hno : testForAnyPol st item (MemberE.actor doer) perm = false)
    (hg : (buildEnforcingSlice item (MemberE.actor doer) perm).general ∈ st.policies) :
    CheckItemPerm st assoc org item doer perm = (true, none) := by
  have he : enforce st (buildEnforcingSlice item (MemberE.actor doer) perm).general = true :=
    enforce_mem_self hg
  simp [CheckItemPerm, hns, hno, he]

theorem checkItemPerm_general_default_witness :
    CheckItemPerm
      { policies := [{ subject := "alice", subkind := "node1", kind := "containers",
                       name := "$$default$$", perm := "read", effect := "allow" }],
        roleEdges := [] }
      { keys := [] } { name := "o" }
      { containerKind := "containers", containerType := "containers", getName := "node1" }
      { name := "alice", isUser := true, orgName := "o" } "read" = (true, none) :=
  checkItemPerm_general_default _ _ _ _ _ _ (by decide) (by decide) (by decide)

/-- C4: when neither the specific nor the general evaluation allows and the
perm occurs in no tuple for the item's (kind, subkind) pair, CheckItemPerm
returns the InvalidPermission error, for every association state. -/
theorem checkItemPerm_invalid_perm (st : Store) (assoc : AssocStore)
    (org : Organization) (item : Item) (doer : ActorE) (perm : String)
    (hns : enforce st (buildEnforcingSlice item (MemberE.actor doer) perm) = false)
    (hng : enforce st (buildEnforcingSlice item (MemberE.actor doer) perm).general = false)
    (hnp : ∀ p ∈ st.policies,
      ¬(p.subkind = item.containerType ∧ p.kind = item.containerKind ∧ p.perm = perm)) :
    CheckItemPerm st assoc org item doer perm = (false, some Gerror.invalidPerm) := by
  have hv : isPermValid st item perm = false := isPermValid_eq_false hnp
  cases htf : testForAnyPol st item (MemberE.actor doer) perm with
  | true => simp [CheckItemPerm, hns, hng, htf, hv]
  | false => simp [CheckItemPerm, hns, hng, htf, hv]

theorem checkItemPerm_invalid_perm_witness :
    CheckItemPerm
      { policies := [{ subject := "alice", subkind := "nodes", kind := "containers",
                       name := "node1", perm := "read", effect := "allow" }],
        roleEdges := [] }
      { keys := [] } { name := "o" }
      { containerKind := "containers", containerType := "nodes", getName := "node1" }
      { name := "alice", isUser := true, orgName := "o" } "frobnicate" =
      (false, some Gerror.invalidPerm) :=
  checkItemPerm_invalid_perm _ _ _ _ _ _ (by decide) (by decide) (by decide)

theorem assembleStep_deny (item : Item) (comparer : Item → PolicyTuple → Bool)
    (acl : List (String × ACLItem)) (p : PolicyTuple) (hd : p.effect = denyEffect) :
    assembleStep item comparer acl p = acl := by
  simp [assembleStep, hd]

theorem foldl_assembleStep_filter_deny (item : Item) (comparer : Item → PolicyTuple → Bool)
    (L : List PolicyTuple) :
    ∀ acl, L.foldl (assembleStep item comparer) acl =
      (L.filter (fun p => !(p.effect == denyEffect))).foldl (assembleStep item comparer) acl := by
  induction L with
  | nil => intro acl; rfl
  | cons p L ih =>
    intro acl
    by_cases hd : p.effect = denyEffect
    · rw [List.foldl_cons, assembleStep_deny item comparer acl p hd, ih,
        List.filter_cons_of_neg]
      simp [hd]
    · rw [List.foldl_cons, List.filter_cons_of_pos, List.foldl_cons, ih]
      simp [hd]

theorem assembleACL_eq_filter_deny (item : Item) (comparer : Item → PolicyTuple → Bool)
    (L : List PolicyTuple) :
    assembleACL item L comparer =
      assembleACL item (L.filter (fun p => !(p.effect == denyEffect))) comparer :=
  foldl_assembleStep_filter_deny item comparer L []

/-- C9: deny-effect tuples never contribute to an assembled ACL snapshot:
both interim snapshots of GetItemACL, and therefore its whole result, are
unchanged when deny-effect tuples are dropped from the assembly inputs. -/
theorem getItemACL_excludes_deny (st : Store) (item : Item) :
    (assembleACL item (getFilteredPolicy st condNamePos item.getName) itemCompare =
      assembleACL item
        ((getFilteredPolicy st condNamePos item.getName).filter
          (fun p => !(p.effect == denyEffect))) itemCompare) ∧
    (assembleACL item
        (if item.containerKind == "groups" then getFilteredPolicy st condNamePos "$$default$$"
         else getFilteredPolicy st condSubkindPos item.containerType) genCompare =
      assembleACL item
        ((if item.containerKind == "groups" then getFilteredPolicy st condNamePos "$$default$$"
          else getFilteredPolicy st condSubkindPos item.containerType).filter
          (fun p => !(p.effect == denyEffect))) genCompare) ∧
    GetItemACL st item = GetItemACLAllowOnly st item := by
  refine ⟨assembleACL_eq_filter_deny _ _ _, assembleACL_eq_filter_deny _ _ _, ?_⟩
  simp only [GetItemACL, GetItemACLAllowOnly]
  rw [assembleACL_eq_filter_deny item itemCompare, assembleACL_eq_filter_deny item genCompare]

/-- C10: RemoveItemACL is a no-op at the public interface: it returns nil
and leaves the rule set untouched (callers must use DeleteItemACL to
actually remove an item's ACL). -/
theorem removeItemACL_noop (st : Store) (item : Item) :
    RemoveItemACL st item = (none, st) := rfl

theorem mem_addPolicy {st : Store} {p q : PolicyTuple} :
    q ∈ (addPolicy st p).policies ↔ q ∈ st.policies ∨ q = p := by
  by_cases h : p ∈ st.policies
  · simp only [addPolicy]
    rw [if_pos (by simpa using h)]
    constructor
    · exact fun hq => Or.inl hq
    · rintro (hq | rfl)
      · exact hq
      · exact h
  · simp only [addPolicy]
    rw [if_neg (by simpa using h)]
    simp [List.mem_append]

theorem mem_removePolicy {st : Store} {p q : PolicyTuple} :
    q ∈ (removePolicy st p).policies ↔ q ∈ st.policies ∧ q ≠ p := by
  simp [removePolicy, List.mem_filter]

theorem roleEdges_addPolicy (st : Store) (p : PolicyTuple) :
    (addPolicy st p).roleEdges = st.roleEdges := by
  by_cases h : p ∈ st.policies
  · simp only [addPolicy]
    rw [if_pos (by simpa using h)]
  · simp only [addPolicy]
    rw [if_neg (by simpa using h)]

theorem roleEdges_removePolicy (st : Store) (p : PolicyTuple) :
    (removePolicy st p).roleEdges = st.roleEdges := rfl

theorem mem_foldl_addPolicy_map (f : PolicyTuple → PolicyTuple) (L : List PolicyTuple) :
    ∀ (st : Store) (q : PolicyTuple),
      q ∈ (L.foldl (fun acc p => addPolicy acc (f p)) st).policies ↔
        q ∈ st.policies ∨ ∃ p ∈ L, q = f p := by
  induction L with
  | nil => intro st q; simp
  | cons p L ih =>
    intro st q
    rw [List.foldl_cons, ih, mem_addPolicy]
    constructor
    · rintro ((hq | rfl) | ⟨r, hr, rfl⟩)
      · exact Or.inl hq
      · exact Or.inr ⟨p, List.mem_cons_self _ _, rfl⟩
      · exact Or.inr ⟨r, List.mem_cons_of_mem _ hr, rfl⟩
    · rintro (hq | ⟨r, hr, rfl⟩)
      · exact Or.inl (Or.inl hq)
      · rcases List.mem_cons.mp hr with rfl | hr
        · exact Or.inl (Or.inr rfl)
        · exact Or.inr ⟨r, hr, rfl⟩

theorem mem_foldl_removePolicy (L : List PolicyTuple) :
    ∀ (st : Store) (q : PolicyTuple),
      q ∈ (L.foldl (fun acc p => removePolicy acc p) st).policies ↔
        q ∈ st.policies ∧ q ∉ L := by
  induction L with
  | nil => intro st q; simp
  | cons p L ih =>
    intro st q
    rw [List.foldl_cons, ih, mem_removePolicy]
    simp only [List.mem_cons]
    constructor
    · rintro ⟨⟨hq, hne⟩, hnL⟩
      exact ⟨hq, fun h => h.elim (fun h1 => hne h1) hnL⟩
    · rintro ⟨hq, hn⟩
      exact ⟨⟨hq, fun h => hn (Or.inl h)⟩, fun h => hn (Or.inr h)⟩

theorem mem_GetItemPolicies {st : Store} {n k t : String} {q : PolicyTuple} :
    q ∈ GetItemPolicies st n k t ↔
      q ∈ st.policies ∧ q.name = n ∧ q.kind = k ∧ q.subkind = t := by
  simp only [GetItemPolicies, getFilteredPolicy, List.mem_filter, condField, condNamePos]
  constructor
  · rintro ⟨⟨hq, hn⟩, hkt⟩
    rw [Bool.and_eq_true] at hkt
    exact ⟨hq, by simpa using hn, by simpa using hkt.1, by simpa using hkt.2⟩
  · rintro ⟨hq, hn, hk, ht⟩
    refine ⟨⟨hq, by simpa using hn⟩, ?_⟩
    rw [Bool.and_eq_true]
    exact ⟨by simpa using hk, by simpa using ht⟩

theorem setName_eq_self {p : PolicyTuple} {n : String} (h : p.name = n) :
    ({ p with name := n } : PolicyTuple) = p := by
  cases p
  simp_all

theorem RenameItemACL_of_empty {st : Store} (item : Item) {oldName : String}
    (he : GetItemPolicies st oldName item.containerKind item.containerType = []) :
    RenameItemACL st item oldName = st := by
  simp only [RenameItemACL]
  rw [if_pos (by simp [he])]

theorem mem_RenameItemACL {st : Store} {item : Item} {oldName : String} (q : PolicyTuple)
    (hne : GetItemPolicies st oldName item.containerKind item.containerType ≠ []) :
    q ∈ (RenameItemACL st item oldName).policies ↔
      ((q ∈ st.policies ∨
          ∃ p ∈ GetItemPolicies st oldName item.containerKind item.containerType,
            q = { p with name := item.getName }) ∧
        q ∉ GetItemPolicies st oldName item.containerKind item.containerType) := by
  have hne' : ¬((GetItemPolicies st oldName item.containerKind item.containerType).isEmpty = true) := by
    simpa using hne
  have hun : RenameItemACL st item oldName =
      (GetItemPolicies st oldName item.containerKind item.containerType).foldl
        (fun acc p => removePolicy acc p)
        ((GetItemPolicies st oldName item.containerKind item.containerType).foldl
          (fun acc p => addPolicy acc { p with name := item.getName }) st) := by
    simp only [RenameItemACL]
    rw [if_neg hne']
  rw [hun, mem_foldl_removePolicy, mem_foldl_addPolicy_map]

/-- C8 counterexample: with a tuple already stored under the new name for
the same kind/subkind, renaming old → new and back does not restore the
original tuple set keyed on the old name (the pre-existing tuple is folded
into the renamed set and travels back with it). -/
theorem renameItemACL_roundtrip_cex :
    GetItemPolicies
      (RenameItemACL
        (RenameItemACL
          { policies := [{ subject := "alice", subkind := "clients", kind := "clients",
                           name := "newn", perm := "read", effect := "allow" },
                         { subject := "bob", subkind := "clients", kind := "clients",
                           name := "oldn", perm := "read", effect := "allow" }],
            roleEdges := [] }
          { containerKind := "clients", containerType := "clients", getName := "newn" } "oldn")
        { containerKind := "clients", containerType := "clients", getName := "oldn" } "newn")
      "oldn" "clients" "clients" ≠
    GetItemPolicies
      { policies := [{ subject := "alice", subkind := "clients", kind := "clients",
                       name := "newn", perm := "read", effect := "allow" },
                     { subject := "bob", subkind := "clients", kind := "clients",
                       name := "oldn", perm := "read", effect := "allow" }],
        roleEdges := [] }
      "oldn" "clients" "clients" := by
  decide

/-- C8 (amended): if no tuple with the new name and the item's kind and
subkind is stored initially, renaming the item's tuples from old to new
and then back from new to old restores the original tuple set. -/
theorem renameItemACL_roundtrip (st : Store) (k sk oldName newName : String) (q : PolicyTuple)
    (hpriv : ∀ p ∈ st.policies, ¬(p.name = newName ∧ p.kind = k ∧ p.subkind = sk)) :
    (q ∈ (RenameItemACL
        (RenameItemACL st { containerKind := k, containerType := sk, getName := newName } oldName)
        { containerKind := k, containerType := sk, getName := oldName } newName).policies ↔
      q ∈ st.policies) := by
  by_cases hT : GetItemPolicies st oldName k sk = []
  · rw [RenameItemACL_of_empty { containerKind := k, containerType := sk, getName := newName } hT]
    have hT2 : GetItemPolicies st newName k sk = [] := by
      rw [List.eq_nil_iff_forall_not_mem]
      intro p hp
      rw [mem_GetItemPolicies] at hp
      exact hpriv p hp.1 ⟨hp.2.1, hp.2.2.1, hp.2.2.2⟩
    rw [RenameItemACL_of_empty { containerKind := k, containerType := sk, getName := oldName } hT2]
  · obtain ⟨p₀, hp₀⟩ := List.exists_mem_of_ne_nil _ hT
    rw [mem_GetItemPolicies] at hp₀
    obtain ⟨hp₀st, hp₀n, hp₀k, hp₀sk⟩ := hp₀
    have hON : oldName ≠ newName := by
      intro he
      exact hpriv p₀ hp₀st ⟨he ▸ hp₀n, hp₀k, hp₀sk⟩
    have hFwd : ∀ r : PolicyTuple,
        r ∈ (RenameItemACL st { containerKind := k, containerType := sk, getName := newName } oldName).policies ↔
          ((r ∈ st.policies ∨ ∃ p ∈ GetItemPolicies st oldName k sk,
              r = { p with name := newName }) ∧
            r ∉ GetItemPolicies st oldName k sk) :=
      fun r => mem_RenameItemACL r hT
    have hT2mem : ∀ r : PolicyTuple,
        r ∈ GetItemPolicies
            (RenameItemACL st { containerKind := k, containerType := sk, getName := newName } oldName)
            newName k sk ↔
          ∃ p ∈ GetItemPolicies st oldName k sk, r = { p with name := newName } := by
      intro r
      rw [mem_GetItemPolicies]
      constructor
      · rintro ⟨hrst1, hrn, hrk, hrsk⟩
        rcases (hFwd r).mp hrst1 with ⟨hor, hnotT⟩
        rcases hor with hst | hex
        · exact absurd ⟨hrn, hrk, hrsk⟩ (hpriv r hst)
        · exact hex
      · rintro ⟨p, hpT, rfl⟩
        have hpc := mem_GetItemPolicies.mp hpT
        refine ⟨(hFwd _).mpr ⟨Or.inr ⟨p, hpT, rfl⟩, ?_⟩, rfl, hpc.2.2.1, hpc.2.2.2⟩
        intro hmem
        have hc := mem_GetItemPolicies.mp hmem
        exact hON (hc.2.1.symm)
    have hT2ne : GetItemPolicies
        (RenameItemACL st { containerKind := k, containerType := sk, getName := newName } oldName)
        newName k sk ≠ [] := by
      intro he
      have hmem : ({ p₀ with name := newName } : PolicyTuple) ∈ GetItemPolicies
          (RenameItemACL st { containerKind := k, containerType := sk, getName := newName } oldName)
          newName k sk :=
        (hT2mem _).mpr ⟨p₀, mem_GetItemPolicies.mpr ⟨hp₀st, hp₀n, hp₀k, hp₀sk⟩, rfl⟩
      rw [he] at hmem
      exact absurd hmem (List.not_mem_nil _)
    rw [mem_RenameItemACL q hT2ne]
    constructor
    · rintro ⟨hor, hnT2⟩
      rcases hor with hq1 | ⟨p2, hp2, rfl⟩
      · rcases (hFwd q).mp hq1 with ⟨hor2, hnotT⟩
        rcases hor2 with hqst | hex
        · exact hqst
        · exact absurd ((hT2mem q).mpr hex) hnT2
      · rcases (hT2mem p2).mp hp2 with ⟨p, hpT, rfl⟩
        have hpc := mem_GetItemPolicies.mp hpT
        have hred : ({ { p with name := newName } with name := oldName } : PolicyTuple) = p := by
          show ({ p with name := oldName } : PolicyTuple) = p
          exact setName_eq_self hpc.2.1
        rw [hred]
        exact hpc.1
    · intro hqst
      by_cases hqT : q ∈ GetItemPolicies st oldName k sk
      · have hpc := mem_GetItemPolicies.mp hqT
        refine ⟨Or.inr ⟨{ q with name := newName }, (hT2mem _).mpr ⟨q, hqT, rfl⟩, ?_⟩, ?_⟩
        · have h2 : ({ { q with name := newName } with name := oldName } : PolicyTuple) = q := by
            show ({ q with name := oldName } : PolicyTuple) = q
            exact setName_eq_self hpc.2.1
          exact h2.symm
        · intro hmem
          rcases (hT2mem q).mp hmem with ⟨p, hpT2, heq⟩
          have hqn : q.name = newName := by rw [heq]
          rw [hpc.2.1] at hqn
          exact hON hqn
      · refine ⟨Or.inl ((hFwd q).mpr ⟨Or.inl hqst, hqT⟩), ?_⟩
        intro hmem
        rcases (hT2mem q).mp hmem with ⟨p, hpT, rfl⟩
        have hpc := mem_GetItemPolicies.mp hpT
        exact hpriv _ hqst ⟨rfl, hpc.2.2.1, hpc.2.2.2⟩

theorem renameItemACL_roundtrip_witness :
    (({ subject := "bob", subkind := "clients", kind := "clients",
        name := "oldn", perm := "read", effect := "allow" } : PolicyTuple) ∈
      (RenameItemACL
        (RenameItemACL
          { policies := [{ subject := "bob", subkind := "clients", kind := "clients",
                           name := "oldn", perm := "read", effect := "allow" }],
            roleEdges := [] }
          { containerKind := "clients", containerType := "clients", getName := "newn" } "oldn")
        { containerKind := "clients", containerType := "clients", getName := "oldn" } "newn").policies ↔
      ({ subject := "bob", subkind := "clients", kind := "clients",
         name := "oldn", perm := "read", effect := "allow" } : PolicyTuple) ∈
      ({ policies := [{ subject := "bob", subkind := "clients", kind := "clients",
                        name := "oldn", perm := "read", effect := "allow" }],
         roleEdges := [] } : Store).policies) :=
  renameItemACL_roundtrip _ "clients" "clients" "oldn" "newn" _ (by decide)

theorem mem_editRemoveStep {item : Item} {perm : String} {A G : List String}
    {st : Store} {p q : PolicyTuple} :
    q ∈ (editRemoveStep item perm A G st p).policies ↔
      q ∈ st.policies ∧ ¬(editRemoveCond item perm A G p = true ∧ q = p) := by
  by_cases h : editRemoveCond item perm A G p = true
  · simp only [editRemoveStep]
    rw [if_pos h, mem_removePolicy]
    simp [h]
  · simp only [editRemoveStep]
    rw [if_neg h]
    simp [h]

theorem mem_foldl_editRemoveStep (item : Item) (perm : String) (A G : List String)
    (L : List PolicyTuple) :
    ∀ (st : Store) (q : PolicyTuple),
      q ∈ (L.foldl (editRemoveStep item perm A G) st).policies ↔
        q ∈ st.policies ∧ ¬(q ∈ L ∧ editRemoveCond item perm A G q = true) := by
  induction L with
  | nil => intro st q; simp
  | cons p L ih =>
    intro st q
    rw [List.foldl_cons, ih, mem_editRemoveStep]
    simp only [List.mem_cons]
    by_cases hqp : q = p
    · subst hqp
      tauto
    · tauto

theorem mem_editRemovePass (item : Item) (perm : String) (A G : List String)
    (st : Store) (q : PolicyTuple) :
    q ∈ ((getFilteredPolicy st condNamePos item.getName).foldl
        (editRemoveStep item perm A G) st).policies ↔
      q ∈ st.policies ∧ ¬ editFullRemCond item perm A G q := by
  rw [mem_foldl_editRemoveStep]
  simp only [getFilteredPolicy, List.mem_filter, condField, condNamePos, beq_iff_eq,
    editFullRemCond]
  tauto

theorem getActor_name {env : OrgEnv} {a : String} {a' : ActorE}
    (h : getActor env a = some a') : a'.name = a := by
  have := List.find?_some h
  simpa using this

theorem groupGet_name {env : OrgEnv} {g g' : String}
    (h : groupGet env g = some g') : g' = g := by
  have := List.find?_some h
  simpa using this

theorem addActorsLoop_char (env : OrgEnv) (item : Item) (perm : String) (acts : List String) :
    ∀ st : Store, (∀ a ∈ acts, (getActor env a).isSome) →
      (addActorsLoop env item perm acts st).1 = none ∧
      ∀ q : PolicyTuple, q ∈ (addActorsLoop env item perm acts st).2.policies ↔
        q ∈ st.policies ∨ q ∈ acts.map (subjTuple item perm) := by
  induction acts with
  | nil => intro st _; simp [addActorsLoop]
  | cons a acts ih =>
    intro st hres
    have ha : (getActor env a).isSome := hres a (List.mem_cons_self _ _)
    obtain ⟨a', ha'⟩ := Option.isSome_iff_exists.mp ha
    have hname : a'.name = a := getActor_name ha'
    simp only [addActorsLoop, ha']
    have hrec := ih (addPolicy st (buildEnforcingSlice item (MemberE.actor a') perm))
      (fun x hx => hres x (List.mem_cons_of_mem _ hx))
    refine ⟨hrec.1, fun q => ?_⟩
    rw [hrec.2 q, mem_addPolicy]
    have htup : buildEnforcingSlice item (MemberE.actor a') perm = subjTuple item perm a := by
      simp [buildEnforcingSlice, subjTuple, MemberE.aclName, hname]
    rw [htup, List.map_cons, List.mem_cons]
    tauto

theorem addActorsLoop_resolves (env : OrgEnv) (item : Item) (perm : String) (acts : List String) :
    ∀ st : Store, (addActorsLoop env item perm acts st).1 = none →
      ∀ a ∈ acts, (getActor env a).isSome := by
  induction acts with
  | nil => intro st _ a ha; exact absurd ha (List.not_mem_nil _)
  | cons a acts ih =>
    intro st h
    cases hga : getActor env a with
    | none => simp [addActorsLoop, hga] at h
    | some a' =>
      simp only [addActorsLoop, hga] at h
      intro x hx
      rcases List.mem_cons.mp hx with rfl | hx
      · simp [hga]
      · exact ih _ h x hx

theorem addGroupsLoop_char (env : OrgEnv) (item : Item) (perm : String) (grs : List String) :
    ∀ st : Store, (∀ g ∈ grs, (groupGet env g).isSome) →
      (addGroupsLoop env item perm grs st).1 = none ∧
      ∀ q : PolicyTuple, q ∈ (addGroupsLoop env item perm grs st).2.policies ↔
        q ∈ st.policies ∨ q ∈ grs.map (fun g => subjTuple item perm ("role##" ++ g)) := by
  induction grs with
  | nil => intro st _; simp [addGroupsLoop]
  | cons g grs ih =>
    intro st hres
    have hg : (groupGet env g).isSome := hres g (List.mem_cons_self _ _)
    obtain ⟨g', hg'⟩ := Option.isSome_iff_exists.mp hg
    have hname : g' = g := groupGet_name hg'
    simp only [addGroupsLoop, hg']
    have hrec := ih (addPolicy st (buildEnforcingSlice item (MemberE.grp g') perm))
      (fun x hx => hres x (List.mem_cons_of_mem _ hx))
    refine ⟨hrec.1, fun q => ?_⟩
    rw [hrec.2 q, mem_addPolicy]
    have htup : buildEnforcingSlice item (MemberE.grp g') perm =
        subjTuple item perm ("role##" ++ g) := by
      simp [buildEnforcingSlice, subjTuple, MemberE.aclName, hname]
    rw [htup, List.map_cons, List.mem_cons]
    tauto

theorem addGroupsLoop_resolves (env : OrgEnv) (item : Item) (perm : String) (grs : List String) :
    ∀ st : Store, (addGroupsLoop env item perm grs st).1 = none →
      ∀ g ∈ grs, (groupGet env g).isSome := by
  induction grs with
  | nil => intro st _ g hg; exact absurd hg (List.not_mem_nil _)
  | cons g grs ih =>
    intro st h
    cases hgg : groupGet env g with
    | none => simp [addGroupsLoop, hgg] at h
    | some g' =>
      simp only [addGroupsLoop, hgg] at h
      intro x hx
      rcases List.mem_cons.mp hx with rfl | hx
      · simp [hgg]
      · exact ih _ h x hx

theorem editFromJSON_ok_char (env : OrgEnv) (st : Store) (item : Item) (perm : String)
    (df ef : List (String × JVal)) (ar gr : List JVal) (A G : List String)
    (h1 : lookupField df perm = some (JVal.obj ef))
    (h2 : lookupField ef "actors" = some (JVal.arr ar))
    (h3 : lookupField ef "groups" = some (JVal.arr gr))
    (h4 : stringsOf ar = some A)
    (h5 : stringsOf gr = some G)
    (hA : ∀ a ∈ A, (getActor env a).isSome)
    (hG : G ≠ [] → ∀ g ∈ G, (groupGet env g).isSome) :
    (EditFromJSON env st item perm (JVal.obj df)).1 = EditOutcome.ok ∧
    ∀ q : PolicyTuple, q ∈ (EditFromJSON env st item perm (JVal.obj df)).2.policies ↔
      editFinalSpec st item perm A G q := by
  have hAc := addActorsLoop_char env item perm A
    ((getFilteredPolicy st condNamePos item.getName).foldl (editRemoveStep item perm A G) st) hA
  rcases hl : addActorsLoop env item perm A
      ((getFilteredPolicy st condNamePos item.getName).foldl (editRemoveStep item perm A G) st)
    with ⟨oa, st2⟩
  rw [hl] at hAc
  obtain ⟨hoa, hmem2⟩ := hAc
  have hoa2 : oa = none := hoa
  subst hoa2
  have hmem2' : ∀ q : PolicyTuple, q ∈ st2.policies ↔
      (q ∈ st.policies ∧ ¬ editFullRemCond item perm A G q) ∨
        q ∈ A.map (subjTuple item perm) := by
    intro q
    have hq := hmem2 q
    rw [mem_editRemovePass] at hq
    exact hq
  by_cases hGe : G = []
  · subst hGe
    by_cases hk : item.containerKind = "groups"
    · constructor
      · simp [EditFromJSON, h1, h2, h3, h4, h5, hl, hk]
      · intro q
        have hscrut : (EditFromJSON env st item perm (JVal.obj df)).2 =
            addPolicy st2 (buildDenySlice item perm) := by
          simp [EditFromJSON, h1, h2, h3, h4, h5, hl, hk]
        rw [hscrut, mem_addPolicy, hmem2' q]
        simp only [editFinalSpec, editBase]
        rw [if_pos hk]
        simp
    · constructor
      · simp [EditFromJSON, h1, h2, h3, h4, h5, hl, hk]
      · intro q
        have hscrut : (EditFromJSON env st item perm (JVal.obj df)).2 = st2 := by
          simp [EditFromJSON, h1, h2, h3, h4, h5, hl, hk]
        rw [hscrut, hmem2' q]
        simp only [editFinalSpec, editBase]
        rw [if_neg hk]
        simp
  · have hGr := hG hGe
    have hGc := addGroupsLoop_char env item perm G st2 hGr
    rcases hgl : addGroupsLoop env item perm G st2 with ⟨og, st3⟩
    rw [hgl] at hGc
    obtain ⟨hog, hmem3⟩ := hGc
    have hog2 : og = none := hog
    subst hog2
    have hlen : 0 < G.length := List.length_pos.mpr hGe
    by_cases hk : item.containerKind = "groups"
    · constructor
      · simp [EditFromJSON, h1, h2, h3, h4, h5, hl, hgl, hlen, hk]
      · intro q
        have hscrut : (EditFromJSON env st item perm (JVal.obj df)).2 =
            removePolicy st3 (buildDenySlice item perm) := by
          simp [EditFromJSON, h1, h2, h3, h4, h5, hl, hgl, hlen, hk]
        rw [hscrut, mem_removePolicy, hmem3 q, hmem2' q]
        simp only [editFinalSpec, editBase]
        rw [if_pos hk, if_neg hGe]
        tauto
    · constructor
      · simp [EditFromJSON, h1, h2, h3, h4, h5, hl, hgl, hlen, hk]
      · intro q
        have hscrut : (EditFromJSON env st item perm (JVal.obj df)).2 = st3 := by
          simp [EditFromJSON, h1, h2, h3, h4, h5, hl, hgl, hlen, hk]
        rw [hscrut, hmem3 q, hmem2' q]
        simp only [editFinalSpec, editBase]
        rw [if_neg hk]
        tauto

theorem editFinalSpec_groups_empty {st : Store} {item : Item} {perm : String}
    {A G : List String} {q : PolicyTuple}
    (hk : item.containerKind = "groups") (hGe : G = []) :
    editFinalSpec st item perm A G q ↔
      (editBase st item perm A G q ∨ q = buildDenySlice item perm) := by
  simp only [editFinalSpec]
  rw [if_pos hk, if_pos hGe]

theorem editFinalSpec_groups_nonempty {st : Store} {item : Item} {perm : String}
    {A G : List String} {q : PolicyTuple}
    (hk : item.containerKind = "groups") (hGe : G ≠ []) :
    editFinalSpec st item perm A G q ↔
      (editBase st item perm A G q ∧ q ≠ buildDenySlice item perm) := by
  simp only [editFinalSpec]
  rw [if_pos hk, if_neg hGe]

theorem editFinalSpec_not_groups {st : Store} {item : Item} {perm : String}
    {A G : List String} {q : PolicyTuple}
    (hk : ¬(item.containerKind = "groups")) :
    editFinalSpec st item perm A G q ↔ editBase st item perm A G q := by
  simp only [editFinalSpec]
  rw [if_neg hk]

theorem editFromJSON_ok_elim (env : OrgEnv) (st : Store) (item : Item) (perm : String)
    (data : JVal) (h : (EditFromJSON env st item perm data).1 = EditOutcome.ok) :
    ∃ df ef ar gr A G, data = JVal.obj df ∧
      lookupField df perm = some (JVal.obj ef) ∧
      lookupField ef "actors" = some (JVal.arr ar) ∧
      lookupField ef "groups" = some (JVal.arr gr) ∧
      stringsOf ar = some A ∧ stringsOf gr = some G ∧
      (∀ a ∈ A, (getActor env a).isSome) ∧
      (G ≠ [] → ∀ g ∈ G, (groupGet env g).isSome) := by
  cases data with
  | str s => simp [EditFromJSON] at h
  | num n => simp [EditFromJSON] at h
  | arr l => simp [EditFromJSON] at h
  | obj df =>
    cases h1 : lookupField df perm with
    | none => simp [EditFromJSON, h1] at h
    | some v =>
      cases v with
      | str s => simp [EditFromJSON, h1] at h
      | num n => simp [EditFromJSON, h1] at h
      | arr l => simp [EditFromJSON, h1] at h
      | obj ef =>
        cases h2 : lookupField ef "actors" with
        | none => simp [EditFromJSON, h1, h2] at h
        | some v2 =>
          cases v2 with
          | str s => simp [EditFromJSON, h1, h2] at h
          | num n => simp [EditFromJSON, h1, h2] at h
          | obj l => simp [EditFromJSON, h1, h2] at h
          | arr ar =>
            cases h3 : lookupField ef "groups" with
            | none => simp [EditFromJSON, h1, h2, h3] at h
            | some v3 =>
              cases v3 with
              | str s => simp [EditFromJSON, h1, h2, h3] at h
              | num n => simp [EditFromJSON, h1, h2, h3] at h
              | obj l => simp [EditFromJSON, h1, h2, h3] at h
              | arr gr =>
                cases h4 : stringsOf ar with
                | none => simp [EditFromJSON, h1, h2, h3, h4] at h
                | some A =>
                  cases h5 : stringsOf gr with
                  | none => simp [EditFromJSON, h1, h2, h3, h4, h5] at h
                  | some G =>
                    rcases hl : addActorsLoop env item perm A
                        ((getFilteredPolicy st condNamePos item.getName).foldl
                          (editRemoveStep item perm A G) st) with ⟨oa, st2⟩
                    cases oa with
                    | some act => simp [EditFromJSON, h1, h2, h3, h4, h5, hl] at h
                    | none =>
                      have hA := addActorsLoop_resolves env item perm A _ (by rw [hl])
                      by_cases hGe : G = []
                      · exact ⟨df, ef, ar, gr, A, G, rfl, h1, h2, h3, h4, h5, hA,
                          fun hne => absurd hGe hne⟩
                      · have hlen : 0 < G.length := List.length_pos.mpr hGe
                        rcases hgl : addGroupsLoop env item perm G st2 with ⟨og, st3⟩
                        cases og with
                        | some grp =>
                          simp [EditFromJSON, h1, h2, h3, h4, h5, hl, hlen, hgl] at h
                        | none =>
                          have hGr := addGroupsLoop_resolves env item perm G _ (by rw [hgl])
                          exact ⟨df, ef, ar, gr, A, G, rfl, h1, h2, h3, h4, h5, hA,
                            fun _ => hGr⟩

/-- C5: EditFromJSON is idempotent — a successful application of a desired
payload, applied again to its own result with no intervening operation,
succeeds and leaves the tuple set unchanged. -/
theorem editFromJSON_idempotent (env : OrgEnv) (st : Store) (item : Item) (perm : String)
    (data : JVal) (q : PolicyTuple)
    (hok : (EditFromJSON env st item perm data).1 = EditOutcome.ok) :
    (EditFromJSON env (EditFromJSON env st item perm data).2 item perm data).1 =
      EditOutcome.ok ∧
    (q ∈ (EditFromJSON env (EditFromJSON env st item perm data).2 item perm data).2.policies ↔
      q ∈ (EditFromJSON env st item perm data).2.policies) := by
  obtain ⟨df, ef, ar, gr, A, G, rfl, h1, h2, h3, h4, h5, hA, hG⟩ :=
    editFromJSON_ok_elim env st item perm data hok
  have hc1 := editFromJSON_ok_char env st item perm df ef ar gr A G h1 h2 h3 h4 h5 hA hG
  have hc2 := editFromJSON_ok_char env (EditFromJSON env st item perm (JVal.obj df)).2
    item perm df ef ar gr A G h1 h2 h3 h4 h5 hA hG
  refine ⟨hc2.1, ?_⟩
  rw [hc2.2 q, hc1.2 q]
  by_cases hk : item.containerKind = "groups"
  · by_cases hGe : G = []
    · rw [editFinalSpec_groups_empty hk hGe, editFinalSpec_groups_empty hk hGe]
      simp only [editBase]
      rw [hc1.2 q, editFinalSpec_groups_empty hk hGe]
      simp only [editBase]
      tauto
    · rw [editFinalSpec_groups_nonempty hk hGe, editFinalSpec_groups_nonempty hk hGe]
      simp only [editBase]
      rw [hc1.2 q, editFinalSpec_groups_nonempty hk hGe]
      simp only [editBase]
      tauto
  · rw [editFinalSpec_not_groups hk, editFinalSpec_not_groups hk]
    simp only [editBase]
    rw [hc1.2 q, editFinalSpec_not_groups hk]
    simp only [editBase]
    tauto

theorem editFromJSON_idempotent_witness :
    (EditFromJSON
        { actors := [{ name := "alice", isUser := true, orgName := "o" }], groups := ["ops"] }
        (EditFromJSON
          { actors := [{ name := "alice", isUser := true, orgName := "o" }], groups := ["ops"] }
          { policies := [], roleEdges := [] }
          { containerKind := "groups", containerType := "groups", getName := "admins" } "update"
          (JVal.obj [("update", JVal.obj [("actors", JVal.arr [JVal.str "alice"]),
            ("groups", JVal.arr [JVal.str "ops"])])])).2
        { containerKind := "groups", containerType := "groups", getName := "admins" } "update"
        (JVal.obj [("update", JVal.obj [("actors", JVal.arr [JVal.str "alice"]),
          ("groups", JVal.arr [JVal.str "ops"])])])).1 = EditOutcome.ok ∧
    (({ subject := "role##ops", subkind := "groups", kind := "groups", name := "admins",
        perm := "update", effect := "allow" } : PolicyTuple) ∈
      (EditFromJSON
        { actors := [{ name := "alice", isUser := true, orgName := "o" }], groups := ["ops"] }
        (EditFromJSON
          { actors := [{ name := "alice", isUser := true, orgName := "o" }], groups := ["ops"] }
          { policies := [], roleEdges := [] }
          { containerKind := "groups", containerType := "groups", getName := "admins" } "update"
          (JVal.obj [("update", JVal.obj [("actors", JVal.arr [JVal.str "alice"]),
            ("groups", JVal.arr [JVal.str "ops"])])])).2
        { containerKind := "groups", containerType := "groups", getName := "admins" } "update"
        (JVal.obj [("update", JVal.obj [("actors", JVal.arr [JVal.str "alice"]),
          ("groups", JVal.arr [JVal.str "ops"])])])).2.policies ↔
      ({ subject := "role##ops", subkind := "groups", kind := "groups", name := "admins",
         perm := "update", effect := "allow" } : PolicyTuple) ∈
      (EditFromJSON
        { actors := [{ name := "alice", isUser := true, orgName := "o" }], groups := ["ops"] }
        { policies := [], roleEdges := [] }
        { containerKind := "groups", containerType := "groups", getName := "admins" } "update"
        (JVal.obj [("update", JVal.obj [("actors", JVal.arr [JVal.str "alice"]),
          ("groups", JVal.arr [JVal.str "ops"])])])).2.policies) :=
  editFromJSON_idempotent _ _ _ _ _ _ (by decide)

theorem role_ne_denyall (g : String) : "role##" ++ g ≠ "denyall##groups" := by
  intro h
  have hd := congrArg String.data h
  rw [String.data_append] at hd
  simp only [show "role##".data = ['r','o','l','e','#','#'] from rfl] at hd
  simp at hd

theorem subjTuple_role_ne_denyslice (item : Item) (perm g : String) :
    subjTuple item perm ("role##" ++ g) ≠ buildDenySlice item perm := by
  intro h
  have hs := congrArg PolicyTuple.subject h
  simp only [subjTuple, buildDenySlice] at hs
  exact role_ne_denyall g hs

/-- C6: for a group-kind item, a successful EditFromJSON with non-empty
desired groups removes the denyall##groups sentinel and adds a role##
tuple per desired group; with empty desired groups it adds the sentinel. -/
theorem editFromJSON_groups_sentinel (env : OrgEnv) (st : Store) (item : Item) (perm : String)
    (df ef : List (String × JVal)) (ar gr : List JVal) (A G : List String)
    (hk : item.containerKind = "groups")
    (h1 : lookupField df perm = some (JVal.obj ef))
    (h2 : lookupField ef "actors" = some (JVal.arr ar))
    (h3 : lookupField ef "groups" = some (JVal.arr gr))
    (h4 : stringsOf ar = some A)
    (h5 : stringsOf gr = some G)
    (hok : (EditFromJSON env st item perm (JVal.obj df)).1 = EditOutcome.ok) :
    (G ≠ [] →
      buildDenySlice item perm ∉ (EditFromJSON env st item perm (JVal.obj df)).2.policies ∧
      ∀ g ∈ G, subjTuple item perm ("role##" ++ g) ∈
        (EditFromJSON env st item perm (JVal.obj df)).2.policies) ∧
    (G = [] →
      buildDenySlice item perm ∈ (EditFromJSON env st item perm (JVal.obj df)).2.policies) := by
  obtain ⟨df', ef', ar', gr', A', G', heq, h1', h2', h3', h4', h5', hA', hG'⟩ :=
    editFromJSON_ok_elim env st item perm (JVal.obj df) hok
  injection heq with hdf
  subst hdf
  rw [h1] at h1'
  injection h1' with hv
  injection hv with hef
  subst hef
  rw [h2] at h2'
  injection h2' with hv2
  injection hv2 with har
  subst har
  rw [h3] at h3'
  injection h3' with hv3
  injection hv3 with hgr
  subst hgr
  rw [h4] at h4'
  injection h4' with hA2
  subst hA2
  rw [h5] at h5'
  injection h5' with hG2
  subst hG2
  have hc := editFromJSON_ok_char env st item perm df ef ar gr A G h1 h2 h3 h4 h5 hA' hG'
  constructor
  · intro hGe
    constructor
    · intro hmem
      rw [hc.2, editFinalSpec_groups_nonempty hk hGe] at hmem
      exact hmem.2 rfl
    · intro g hg
      rw [hc.2, editFinalSpec_groups_nonempty hk hGe]
      exact ⟨Or.inr (Or.inr (List.mem_map_of_mem _ hg)),
        subjTuple_role_ne_denyslice item perm g⟩
  · intro hGe
    rw [hc.2, editFinalSpec_groups_empty hk hGe]
    exact Or.inr rfl

theorem editFromJSON_groups_sentinel_witness :
    (buildDenySlice { containerKind := "groups", containerType := "groups", getName := "admins" }
        "update" ∉
      (EditFromJSON { actors := [], groups := ["ops"] }
        { policies := [{ subject := "denyall##groups", subkind := "groups", kind := "groups",
                         name := "admins", perm := "update", effect := "allow" }],
          roleEdges := [] }
        { containerKind := "groups", containerType := "groups", getName := "admins" } "update"
        (JVal.obj [("update", JVal.obj [("actors", JVal.arr []),
          ("groups", JVal.arr [JVal.str "ops"])])])).2.policies) ∧
    subjTuple { containerKind := "groups", containerType := "groups", getName := "admins" }
        "update" ("role##" ++ "ops") ∈
      (EditFromJSON { actors := [], groups := ["ops"] }
        { policies := [{ subject := "denyall##groups", subkind := "groups", kind := "groups",
                         name := "admins", perm := "update", effect := "allow" }],
          roleEdges := [] }
        { containerKind := "groups", containerType := "groups", getName := "admins" } "update"
        (JVal.obj [("update", JVal.obj [("actors", JVal.arr []),
          ("groups", JVal.arr [JVal.str "ops"])])])).2.policies := by
  have h := editFromJSON_groups_sentinel { actors := [], groups := ["ops"] }
    { policies := [{ subject := "denyall##groups", subkind := "groups", kind := "groups",
                     name := "admins", perm := "update", effect := "allow" }],
      roleEdges := [] }
    { containerKind := "groups", containerType := "groups", getName := "admins" } "update"
    [("update", JVal.obj [("actors", JVal.arr []), ("groups", JVal.arr [JVal.str "ops"])])]
    [("actors", JVal.arr []), ("groups", JVal.arr [JVal.str "ops"])]
    [] [JVal.str "ops"] [] ["ops"]
    rfl rfl rfl rfl rfl rfl (by decide)
  exact ⟨(h.1 (by decide)).1, (h.1 (by decide)).2 "ops" (by decide)⟩

/-- C7 counterexample: an actors list holding a non-string element makes
EditFromJSON panic (unchecked Go type assertion), not return a
structural-validation error; the rule set is nevertheless unchanged. -/
theorem editFromJSON_nonstring_panics :
    EditFromJSON { actors := [], groups := [] } { policies := [], roleEdges := [] }
      { containerKind := "clients", containerType := "clients", getName := "c1" } "read"
      (JVal.obj [("read", JVal.obj [("actors", JVal.arr [JVal.num 42]),
        ("groups", JVal.arr [])])]) =
    (EditOutcome.panicked, { policies := [], roleEdges := [] }) := rfl

/-- C7 (amended): a payload whose shape is malformed — top level not a map,
permission key missing, per-perm value not a map, or actors/groups fields
not lists — makes EditFromJSON return a structural-validation error with
the rule set unchanged; a list containing a non-string element instead
panics (still before any mutation). -/
theorem editFromJSON_malformed (env : OrgEnv) (st : Store) (item : Item) (perm : String)
    (data : JVal) (h : malformedShape data perm = true) :
    isStructuralErr (EditFromJSON env st item perm data).1 = true ∧
    (EditFromJSON env st item perm data).2 = st := by
  cases data with
  | str s => simp [EditFromJSON, isStructuralErr]
  | num n => simp [EditFromJSON, isStructuralErr]
  | arr l => simp [EditFromJSON, isStructuralErr]
  | obj df =>
    cases h1 : lookupField df perm with
    | none => simp [EditFromJSON, h1, isStructuralErr]
    | some v =>
      cases v with
      | str s => simp [EditFromJSON, h1, isStructuralErr]
      | num n => simp [EditFromJSON, h1, isStructuralErr]
      | arr l => simp [EditFromJSON, h1, isStructuralErr]
      | obj ef =>
        cases h2 : lookupField ef "actors" with
        | none => simp [EditFromJSON, h1, h2, isStructuralErr]
        | some v2 =>
          cases v2 with
          | str s => simp [EditFromJSON, h1, h2, isStructuralErr]
          | num n => simp [EditFromJSON, h1, h2, isStructuralErr]
          | obj l => simp [EditFromJSON, h1, h2, isStructuralErr]
          | arr ar =>
            cases h3 : lookupField ef "groups" with
            | none => simp [EditFromJSON, h1, h2, h3, isStructuralErr]
            | some v3 =>
              cases v3 with
              | str s => simp [EditFromJSON, h1, h2, h3, isStructuralErr]
              | num n => simp [EditFromJSON, h1, h2, h3, isStructuralErr]
              | obj l => simp [EditFromJSON, h1, h2, h3, isStructuralErr]
              | arr gr =>
                exfalso
                simp [malformedShape, h1, h2, h3] at h

theorem editFromJSON_malformed_witness :
    isStructuralErr (EditFromJSON { actors := [], groups := [] }
        { policies := [], roleEdges := [] }
        { containerKind := "clients", containerType := "clients", getName := "c1" } "read"
        (JVal.obj [("read", JVal.obj [("actors", JVal.str "oops"),
          ("groups", JVal.arr [])])])).1 = true ∧
    (EditFromJSON { actors := [], groups := [] } { policies := [], roleEdges := [] }
        { containerKind := "clients", containerType := "clients", getName := "c1" } "read"
        (JVal.obj [("read", JVal.obj [("actors", JVal.str "oops"),
          ("groups", JVal.arr [])])])).2 =
      { policies := [], roleEdges := [] } :=
  editFromJSON_malformed _ _ _ _ _ (by decide)
